import Mathlib

/-! The fastText command-line front end, `src/main.cc`.

A shallow embedding of the command router of `main.cc` and of every handler it
dispatches to.  The program is a sequence of effects on the outside world
(writes to the two console streams, file opens, calls into the `FastText`
engine) that ends in a process status.  A run is therefore modelled as the list
of effects performed, in order, together with the way the process ended.

Everything the handlers cannot decide by themselves is a field of `Env`:
which model file loads (and whether the model carries an index), which files
open, what the `Args` configuration parser answers, and what standard input
holds.
-/

namespace FastText

/-! ## Data model -/

/-- The two console streams the front end writes to. -/
inductive Out where
  | cerr
  | cout
  deriving DecidableEq, Repr

/-- The input stream handed to a model operation: `std::cin` or an `std::ifstream`
opened on a path. -/
inductive Source where
  | stdin
  | file (path : String)
  deriving DecidableEq, Repr

/-- The two exceptions `std::stoi` throws. -/
inductive StoiError where
  | invalid_argument
  | out_of_range
  deriving DecidableEq, Repr

/-- How the process ends: a call of `exit(code)` (or `return code` from `main`), or
`std::terminate` after an exception nobody catches. -/
inductive Outcome where
  | exit (code : Int)
  | terminate (e : StoiError)
  deriving DecidableEq, Repr

/-- Effects visible outside the process, in the order the code performs them. -/
inductive Event where
  /-- Text sent to `std::cerr` or `std::cout` by one output statement. -/
  | write (stream : Out) (text : String)
  /-- The call `a->printHelp()` on the configuration object. -/
  | printHelp
  /-- The call `a->parseArgs(args)`. -/
  | parseArgs (args : List String)
  /-- Construction of `std::ifstream ifs(path)`; `ok` is `ifs.is_open()`. -/
  | openIn (path : String) (ok : Bool)
  /-- Construction of `std::ofstream ofs(path, ...)`; when `ok` the file has been created
  or truncated. -/
  | openOut (path : String) (ok : Bool)
  /-- The call `ifs.close()`. -/
  | closeIn (path : String)
  | loadModel (path : String)
  /-- The call `saveModel()` (`none`) or `saveModel(path)` (`some path`). -/
  | saveModel (path : Option String)
  | saveVectors
  | saveOutput
  | train
  | quantize
  | test (src : Source) (k : Int)
  | predict (src : Source) (k : Int) (print_prob : Bool)
  | trainIndex (index_size index_quant : String)
  | approxPredict (src : Source) (k nprobe : Int)
  | toFvecs (src : Source) (ofs_h ofs_w ofs_l : String)
  | getDimension
  | getWordVector (word : String)
  | getSentenceVector
  | ngramVectors (word : String)
  | nn (k : Int)
  | analogies (k : Int)
  deriving DecidableEq, Repr

/-- What `main.cc` observes of a loaded model: only `hasIndex()`. -/
structure Model where
  hasIndex : Bool
  deriving DecidableEq, Repr

/-- The two fields of the `Args` configuration object that `main.cc` reads. -/
structure Args where
  output : String
  saveOutput : Int
  deriving DecidableEq, Repr

/-- The world outside `main.cc`. -/
structure Env where
  /-- Modelled from the spec: `FastText::loadModel` is not part of the sources at hand;
  "`load(path)`: fails fatally (process exit with failure) if the path cannot be
  opened/parsed as a valid model".  `none` is that fatal failure. -/
  loadModel : String → Option Model
  /-- Whether `std::ifstream` opens the path. -/
  canRead : String → Bool
  /-- Whether `std::ofstream` opens (creates or truncates) the path. -/
  canWrite : String → Bool
  /-- Modelled from the spec: `Args::parseArgs` is not part of the sources at hand; on a
  violation the training path ends in the "config parser's own usage".  `none` is that
  ending (a failure exit inside the parser). -/
  parseArgs : List String → Option Args
  /-- The whitespace-delimited tokens waiting on standard input. -/
  stdinWords : List String
  /-- The number of sentence units waiting on standard input. -/
  stdinSentences : Nat
  /-- The text `operator<<` produces for the vector of a word. -/
  wordVector : String → String
  /-- The text `operator<<` produces for the vector of the i-th sentence. -/
  sentenceVector : Nat → String

def EXIT_SUCCESS : Int := 0

def EXIT_FAILURE : Int := 1

/-! ## Sequencing of effects -/

/-- A piece of the program: the effects it performs and either the value it hands to
what follows or the way it ended the process. -/
structure Proc (α : Type) where
  trace : List Event
  result : Except Outcome α

namespace Proc

def ret {α : Type} (a : α) : Proc α := ⟨[], .ok a⟩

def andThen {α β : Type} (p : Proc α) (f : α → Proc β) : Proc β :=
  match p.result with
  | .error o => ⟨p.trace, .error o⟩
  | .ok a => ⟨p.trace ++ (f a).trace, (f a).result⟩

end Proc

instance : Monad Proc where
  pure := Proc.ret
  bind := Proc.andThen

/-- One effect, after which control continues. -/
def emit (e : Event) : Proc Unit := ⟨[e], .ok ()⟩

/-- The library call `exit(code)`: nothing after it runs. -/
def exit {α : Type} (code : Int) : Proc α := ⟨[], .error (.exit code)⟩

/-- A finished run of the whole program. -/
structure Run where
  trace : List Event
  status : Outcome
  deriving DecidableEq, Repr

/-! ## `std::stoi` -/

def INT_MAX : Int := 2147483647

def INT_MIN : Int := -2147483648

/-- The characters `isspace` accepts in the C locale: space and `\t \n \v \f \r`. -/
def isSpace (c : Char) : Bool := c.toNat = 32 || (9 ≤ c.toNat && c.toNat ≤ 13)

def digitsValue (ds : List Char) : Nat :=
  ds.foldl (fun acc c => 10 * acc + (c.toNat - 48)) 0

/-- The standard `std::stoi(str)` (base 10): skip leading white space, read an optional
sign and the longest run of decimal digits, ignore what follows; no digit at all is
`invalid_argument`, a value that does not fit `int` is `out_of_range`. -/
def stoiValue (s : String) : Except StoiError Int :=
  let cs := s.toList.dropWhile isSpace
  let neg : Bool := cs.head? = some (Char.ofNat 45)
  let signed : Bool := neg || cs.head? = some (Char.ofNat 43)
  let ds := (if signed then cs.tail else cs).takeWhile Char.isDigit
  if ds = [] then .error .invalid_argument
  else
    let v : Int := if neg then -(digitsValue ds : Int) else (digitsValue ds : Int)
    if v < INT_MIN ∨ INT_MAX < v then .error .out_of_range else .ok v

/-- A call of `std::stoi` inside the program: an exception it throws is never caught, so
the process terminates there. -/
def stoi (s : String) : Proc Int :=
  match stoiValue s with
  | .ok v => ⟨[], .ok v⟩
  | .error e => ⟨[], .error (.terminate e)⟩

/-! ## Calls into the world -/

/-- The call `fasttext.loadModel(path)`. -/
def loadModel (env : Env) (path : String) : Proc Model :=
  match env.loadModel path with
  | some m => ⟨[.loadModel path], .ok m⟩
  | none => ⟨[.loadModel path], .error (.exit EXIT_FAILURE)⟩

/-- The call `a->parseArgs(args)`. -/
def parseArgs (env : Env) (args : List String) : Proc Args :=
  match env.parseArgs args with
  | some a => ⟨[.parseArgs args], .ok a⟩
  | none => ⟨[.parseArgs args], .error (.exit EXIT_FAILURE)⟩

/-- The declaration `std::ifstream ifs(path)`; the value is `ifs.is_open()`. -/
def ifstream (env : Env) (path : String) : Proc Bool :=
  ⟨[.openIn path (env.canRead path)], .ok (env.canRead path)⟩

/-- The declaration `std::ofstream ofs(path, ...)`; the value is `ofs.is_open()`. -/
def ofstream (env : Env) (path : String) : Proc Bool :=
  ⟨[.openOut path (env.canWrite path)], .ok (env.canWrite path)⟩

/-! ## Usage messages

Each function sends its text to one stream in a single statement; the closing
`std::endl` is the last line break of the text. -/

def printUsage : Proc Unit :=
  emit (.write .cerr
    ("usage: fasttext <command> <args>\n\n"
    ++ "The commands supported by fasttext are:\n\n"
    ++ "  supervised              train a supervised classifier\n"
    ++ "  quantize                quantize a model to reduce the memory usage\n"
    ++ "  test                    evaluate a supervised classifier\n"
    ++ "  predict                 predict most likely labels\n"
    ++ "  predict-prob            predict most likely labels with probabilities\n"
    ++ "  train-index             train faiss index to allow for approx-predict\n"
    ++ "  approx-predict          use faiss to predict most likely labels\n"
    ++ "  to-fvecs                store hidden representations and output matrix for Fvecs benchmarking\n"
    ++ "  skipgram                train a skipgram model\n"
    ++ "  cbow                    train a cbow model\n"
    ++ "  print-word-vectors      print word vectors given a trained model\n"
    ++ "  print-sentence-vectors  print sentence vectors given a trained model\n"
    ++ "  nn                      query for nearest neighbors\n"
    ++ "  analogies               query for analogies\n"
    ++ "\n"))

def printQuantizeUsage : Proc Unit :=
  emit (.write .cerr
    ("usage: fasttext quantize <args>"
    ++ "\n"))

def printTestUsage : Proc Unit :=
  emit (.write .cerr
    ("usage: fasttext test <model> <test-data> [<k>]\n\n"
    ++ "  <model>      model filename\n"
    ++ "  <test-data>  test data filename (if -, read from stdin)\n"
    ++ "  <k>          (optional; 1 by default) predict top k labels\n"
    ++ "\n"))

def printPredictUsage : Proc Unit :=
  emit (.write .cerr
    ("usage: fasttext predict[-prob] <model> <test-data> [<k>]\n\n"
    ++ "  <model>      model filename\n"
    ++ "  <test-data>  test data filename (if -, read from stdin)\n"
    ++ "  <k>          (optional; 1 by default) predict top k labels\n"
    ++ "\n"))

def printFvecsUsage : Proc Unit :=
  emit (.write .cerr
    ("usage: fasttext to-fvecs <model> <test-data> <output>\n\n"
    ++ "  <model>      model filename\n"
    ++ "  <test-data>  test data filename (if -, read from stdin)\n"
    ++ "  <output>     where hidden.fvecs and wo.fvecs should be written\n"
    ++ "\n"))

def printPrintWordVectorsUsage : Proc Unit :=
  emit (.write .cerr
    ("usage: fasttext print-word-vectors <model>\n\n"
    ++ "  <model>      model filename\n"
    ++ "\n"))

def printPrintSentenceVectorsUsage : Proc Unit :=
  emit (.write .cerr
    ("usage: fasttext print-sentence-vectors <model>\n\n"
    ++ "  <model>      model filename\n"
    ++ "\n"))

def printPrintNgramsUsage : Proc Unit :=
  emit (.write .cerr
    ("usage: fasttext print-ngrams <model> <word>\n\n"
    ++ "  <model>      model filename\n"
    ++ "  <word>       word to print\n"
    ++ "\n"))

def printTrainIndexUsage : Proc Unit :=
  emit (.write .cerr
    ("usage: fasttext train-index <model> [args]\n\n"
    ++ "  <model>                       model filename\n\n"
    ++ "  Supported args are:\n\n"
    ++ "    index-size           [4096] index size passed to faiss\n"
    ++ "    index-quantizer      [Flat] index quantizer passed to faiss\n"
    ++ "\n"))

def printApproxPredictUsage : Proc Unit :=
  emit (.write .cerr
    ("usage: fasttext approx-test <model> <test-data> [k] [nprobe]\n\n"
    ++ "  <model>                      model filename\n"
    ++ "  <test-data>                  test data filename\n"
    ++ "  <k>                  [5]     same as in fasttext.predict: we will output top k labels\n"
    ++ "  <nprobe>             [256]  `nprobe` search parameter passed to faiss\n"
    ++ "\n"))

def printNNUsage : Proc Unit :=
  emit (.write .cout
    ("usage: fasttext nn <model> <k>\n\n"
    ++ "  <model>      model filename\n"
    ++ "  <k>          (optional; 10 by default) predict top k labels\n"
    ++ "\n"))

def printAnalogiesUsage : Proc Unit :=
  emit (.write .cout
    ("usage: fasttext analogies <model> <k>\n\n"
    ++ "  <model>      model filename\n"
    ++ "  <k>          (optional; 10 by default) predict top k labels\n"
    ++ "\n"))

/-! ## Handlers

`args.getD i ""` stands for `args[i]`: every such access below is made after
the handler has checked `args.size()`, so the default is never taken. -/

def quantize (env : Env) (args : List String) : Proc Unit := do
  if args.length < 3 then
    printQuantizeUsage
    emit .printHelp
    exit EXIT_FAILURE
  let a ← parseArgs env args
  let _fasttext ← loadModel env (a.output ++ ".bin")
  emit .quantize
  emit (.saveModel none)
  exit 0

def test (env : Env) (args : List String) : Proc Unit := do
  if args.length < 4 ∨ args.length > 5 then
    printTestUsage
    exit EXIT_FAILURE
  let k ← (if args.length ≥ 5 then stoi (args.getD 4 "") else pure 1)
  let _fasttext ← loadModel env (args.getD 2 "")
  let infile := args.getD 3 ""
  if infile = "-" then
    emit (.test .stdin k)
  else
    let is_open ← ifstream env infile
    if !is_open then
      emit (.write .cerr ("Test file cannot be opened!" ++ "\n"))
      exit EXIT_FAILURE
    emit (.test (.file infile) k)
    emit (.closeIn infile)
  exit 0

def predict (env : Env) (args : List String) : Proc Unit := do
  if args.length < 4 ∨ args.length > 5 then
    printPredictUsage
    exit EXIT_FAILURE
  let k ← (if args.length ≥ 5 then stoi (args.getD 4 "") else pure 1)
  let print_prob : Bool := args.getD 1 "" = "predict-prob"
  let _fasttext ← loadModel env (args.getD 2 "")
  let infile := args.getD 3 ""
  if infile = "-" then
    emit (.predict .stdin k print_prob)
  else
    let is_open ← ifstream env infile
    if !is_open then
      emit (.write .cerr ("Input file cannot be opened!" ++ "\n"))
      exit EXIT_FAILURE
    emit (.predict (.file infile) k print_prob)
    emit (.closeIn infile)
  exit 0

/-- The handler of `train-index`.  Its local `fail` is `printTrainIndexUsage(); exit(EXIT_FAILURE)`.
The handler returns to `main` after saving. -/
def trainIndex (env : Env) (args : List String) : Proc Unit := do
  if args.length < 3 ∨ args.length > 5 then
    printTrainIndexUsage
    exit EXIT_FAILURE
  let model_path := args.getD 2 ""
  let fasttext ← loadModel env model_path
  if fasttext.hasIndex then
    emit (.write .cerr "Model is already trained. Exiting.\n\n")
    exit EXIT_SUCCESS
  let index_size := if args.length > 3 then args.getD 3 "" else "4096"
  let index_quant := if args.length > 4 then args.getD 4 "" else "Flat"
  emit (.trainIndex index_size index_quant)
  emit (.saveModel (some model_path))

/-- The local `get_arg` of `approxPredict`: the argument at `idx` read by `stoi` when the
vector is long enough, the default otherwise. -/
def get_arg (args : List String) (idx : Nat) (default_ : Int) : Proc Int :=
  if args.length ≥ idx + 1 then stoi (args.getD idx "") else pure default_

/-- The handler of `approx-predict`.  Its local `fail` is `printFvecsUsage(); exit(EXIT_FAILURE)`. -/
def approxPredict (env : Env) (args : List String) : Proc Unit := do
  if args.length < 4 ∨ args.length > 6 then
    printFvecsUsage
    exit EXIT_FAILURE
  let fasttext ← loadModel env (args.getD 2 "")
  let fname := args.getD 3 ""
  let is_open ← ifstream env fname
  let k ← get_arg args 4 1
  let nprobe ← get_arg args 5 256
  if !is_open then
    printFvecsUsage
    exit EXIT_FAILURE
  if !fasttext.hasIndex then
    printFvecsUsage
    exit EXIT_FAILURE
  emit (.approxPredict (.file fname) k nprobe)
  exit EXIT_SUCCESS

def toFvecs (env : Env) (args : List String) : Proc Unit := do
  if args.length ≠ 5 then
    printFvecsUsage
    exit EXIT_FAILURE
  let _fasttext ← loadModel env (args.getD 2 "")
  let infile := args.getD 3 ""
  let outfile := args.getD 4 ""
  let ifs ← ifstream env infile
  let ofs_h ← ofstream env (outfile ++ ".hid.fvecs")
  let ofs_w ← ofstream env (outfile ++ ".wo.fvecs")
  let ofs_l ← ofstream env (outfile ++ ".labels.txt")
  if !ifs || !ofs_h || !ofs_w || !ofs_l then
    emit (.write .cerr ("Some files could not be opened!" ++ "\n"))
    exit EXIT_FAILURE
  emit (.toFvecs (.file infile) (outfile ++ ".hid.fvecs") (outfile ++ ".wo.fvecs")
    (outfile ++ ".labels.txt"))
  emit (.closeIn infile)
  exit 0

/-- The body of the loop `while (std::cin >> word)` of `printWordVectors`, once per token. -/
def wordVectorLoop (env : Env) : List String → Proc Unit
  | [] => pure ()
  | word :: rest => do
    emit (.getWordVector word)
    emit (.write .cout (word ++ " " ++ env.wordVector word ++ "\n"))
    wordVectorLoop env rest

def printWordVectors (env : Env) (args : List String) : Proc Unit := do
  if args.length ≠ 3 then
    printPrintWordVectorsUsage
    exit EXIT_FAILURE
  let _fasttext ← loadModel env (args.getD 2 "")
  emit .getDimension
  wordVectorLoop env env.stdinWords
  exit 0

/-- The body of the loop `while (std::cin.peek() != EOF)` of `printSentenceVectors`, once
per sentence unit left on standard input; `i` numbers the units. -/
def sentenceVectorLoop (env : Env) (i : Nat) : Nat → Proc Unit
  | 0 => pure ()
  | left + 1 => do
    emit .getSentenceVector
    emit (.write .cout (env.sentenceVector i ++ "\n"))
    sentenceVectorLoop env (i + 1) left

def printSentenceVectors (env : Env) (args : List String) : Proc Unit := do
  if args.length ≠ 3 then
    printPrintSentenceVectorsUsage
    exit EXIT_FAILURE
  let _fasttext ← loadModel env (args.getD 2 "")
  emit .getDimension
  sentenceVectorLoop env 0 env.stdinSentences
  exit 0

def printNgrams (env : Env) (args : List String) : Proc Unit := do
  if args.length ≠ 4 then
    printPrintNgramsUsage
    exit EXIT_FAILURE
  let _fasttext ← loadModel env (args.getD 2 "")
  emit (.ngramVectors (args.getD 3 ""))
  exit 0

def nn (env : Env) (args : List String) : Proc Unit := do
  let k ← (if args.length = 3 then pure 10
    else if args.length = 4 then stoi (args.getD 3 "")
    else do
      printNNUsage
      exit EXIT_FAILURE)
  let _fasttext ← loadModel env (args.getD 2 "")
  emit (.nn k)
  exit 0

def analogies (env : Env) (args : List String) : Proc Unit := do
  let k ← (if args.length = 3 then pure 10
    else if args.length = 4 then stoi (args.getD 3 "")
    else do
      printAnalogiesUsage
      exit EXIT_FAILURE)
  let _fasttext ← loadModel env (args.getD 2 "")
  emit (.analogies k)
  exit 0

/-- The handler of the three training commands; it returns to `main`. -/
def train (env : Env) (args : List String) : Proc Unit := do
  let a ← parseArgs env args
  emit .train
  emit (.saveModel none)
  emit .saveVectors
  if a.saveOutput > 0 then
    emit .saveOutput

/-- The body of `main`: the router. -/
def mainBody (env : Env) (args : List String) : Proc Unit := do
  if args.length < 2 then
    printUsage
    exit EXIT_FAILURE
  let command := args.getD 1 ""
  if command = "skipgram" ∨ command = "cbow" ∨ command = "supervised" then
    train env args
  else if command = "test" then
    test env args
  else if command = "quantize" then
    quantize env args
  else if command = "print-word-vectors" then
    printWordVectors env args
  else if command = "print-sentence-vectors" then
    printSentenceVectors env args
  else if command = "print-ngrams" then
    printNgrams env args
  else if command = "nn" then
    nn env args
  else if command = "analogies" then
    analogies env args
  else if command = "predict" ∨ command = "predict-prob" then
    predict env args
  else if command = "train-index" then
    trainIndex env args
  else if command = "approx-predict" then
    approxPredict env args
  else if command = "to-fvecs" then
    toFvecs env args
  else
    printUsage
    exit EXIT_FAILURE

/-- The end of the process once the router is done: falling off the router is the
`return 0` of `main`, an `exit` or an uncaught exception inside a handler is the status. -/
def Proc.run (p : Proc Unit) : Run :=
  match p.result with
  | .ok _ => ⟨p.trace, .exit 0⟩
  | .error o => ⟨p.trace, o⟩

/-- The whole program on the argument vector `args` (`argv[0]` included): the effects
performed and the process status. -/
def main (env : Env) (args : List String) : Run := (mainBody env args).run

/-! ## Vocabulary of the properties -/

/-- The event is a file open (for reading or for writing). -/
def Event.isFileOpen : Event → Bool
  | .openIn _ _ => true
  | .openOut _ _ => true
  | _ => false

/-- The event is a call into the `FastText` engine (load, save, train, query, export). -/
def Event.isModelOp : Event → Bool
  | .write _ _ => false
  | .printHelp => false
  | .parseArgs _ => false
  | .openIn _ _ => false
  | .openOut _ _ => false
  | .closeIn _ => false
  | _ => true

/-- The status the parent process sees is not zero: `exit` with a non-zero code, or the
abort that follows an uncaught exception. -/
def Outcome.nonZero : Outcome → Bool
  | .exit code => decide (code ≠ 0)
  | .terminate _ => true

/-- The dispatch table of the command router, as the specification lists it. -/
def dispatchTable : List (String × (Env → List String → Proc Unit)) :=
  [("supervised", train), ("skipgram", train), ("cbow", train), ("test", test),
   ("predict", predict), ("predict-prob", predict), ("quantize", quantize),
   ("train-index", trainIndex), ("approx-predict", approxPredict), ("to-fvecs", toFvecs),
   ("print-word-vectors", printWordVectors), ("print-sentence-vectors", printSentenceVectors),
   ("print-ngrams", printNgrams), ("nn", nn), ("analogies", analogies)]

/-- The recognised command tokens. -/
def commands : List String :=
  ["supervised", "skipgram", "cbow", "test", "predict", "predict-prob", "quantize",
   "train-index", "approx-predict", "to-fvecs", "print-word-vectors",
   "print-sentence-vectors", "print-ngrams", "nn", "analogies"]

/-- The arity bounds of the non-training commands as the CLI table of the specification
gives them: command, minimum length, maximum length (`none`: no maximum); the length
counts the program name and the command. -/
def arityBounds : List (String × Nat × Option Nat) :=
  [("test", 4, some 5), ("predict", 4, some 5), ("predict-prob", 4, some 5),
   ("quantize", 3, none), ("train-index", 3, some 5), ("approx-predict", 4, some 6),
   ("to-fvecs", 5, some 5), ("print-word-vectors", 3, some 3),
   ("print-sentence-vectors", 3, some 3), ("print-ngrams", 4, some 4), ("nn", 3, some 4),
   ("analogies", 3, some 4)]

/-- The length `n` violates the bounds `lo`, `hi`. -/
def outsideBounds (n lo : Nat) : Option Nat → Bool
  | none => decide (n < lo)
  | some hi => decide (n < lo) || decide (hi < n)

/-- A small concrete world: `model.bin` loads without an index, `indexed.bin` loads with
one, `data.txt` is the only readable file, every output path can be written. -/
def sampleEnv : Env where
  loadModel := fun p =>
    if p = "model.bin" then some ⟨false⟩ else if p = "indexed.bin" then some ⟨true⟩ else none
  canRead := fun p => decide (p = "data.txt")
  canWrite := fun _ => true
  parseArgs := fun _ => none
  stdinWords := ["a", "b"]
  stdinSentences := 2
  wordVector := fun _ => "0 1"
  sentenceVector := fun _ => "1 2"

/-- The run that only prints the top-level usage and fails. -/
def usageFailure : Run := ⟨printUsage.trace, .exit EXIT_FAILURE⟩

/-- The shape of every run that stops at a usage message: one console write, possibly the
help of the configuration object, and the failure status. -/
def IsUsageExit (r : Run) : Prop :=
  ∃ out text more, more ⊆ [Event.printHelp] ∧
    r = ⟨Event.write out text :: more, .exit EXIT_FAILURE⟩

/-- The event with the probability flag of a `predict` call replaced by `b`; every other
event unchanged. -/
def setProb (b : Bool) : Event → Event
  | .predict src k _ => .predict src k b
  | e => e

/-- The four opens of `toFvecs`, in the order the handler makes them, each with its
outcome. -/
def fvecsOpens (env : Env) (infile outfile : String) : List Event :=
  [.openIn infile (env.canRead infile),
   .openOut (outfile ++ ".hid.fvecs") (env.canWrite (outfile ++ ".hid.fvecs")),
   .openOut (outfile ++ ".wo.fvecs") (env.canWrite (outfile ++ ".wo.fvecs")),
   .openOut (outfile ++ ".labels.txt") (env.canWrite (outfile ++ ".labels.txt"))]

/-- All four streams of `toFvecs` opened. -/
def fvecsAllOpen (env : Env) (infile outfile : String) : Bool :=
  env.canRead infile && env.canWrite (outfile ++ ".hid.fvecs") &&
    env.canWrite (outfile ++ ".wo.fvecs") && env.canWrite (outfile ++ ".labels.txt")

/-- A world in which a file named `-` exists and can be read, and every model loads with an
index. -/
def dashFileEnv : Env where
  loadModel := fun _ => some ⟨true⟩
  canRead := fun p => decide (p = "-")
  canWrite := fun _ => true
  parseArgs := fun _ => none
  stdinWords := []
  stdinSentences := 0
  wordVector := fun _ => ""
  sentenceVector := fun _ => ""

/-! ## Basic facts -/

@[simp] theorem Proc.ok_andThen {α β : Type} (t : List Event) (a : α) (f : α → Proc β) :
    Proc.andThen ⟨t, .ok a⟩ f = ⟨t ++ (f a).trace, (f a).result⟩ := rfl

@[simp] theorem Proc.error_andThen {α β : Type} (t : List Event) (o : Outcome) (f : α → Proc β) :
    Proc.andThen ⟨t, .error o⟩ f = ⟨t, .error o⟩ := rfl

@[simp] theorem Proc.eta {α : Type} (p : Proc α) : (⟨p.trace, p.result⟩ : Proc α) = p := rfl

theorem bind_eq {α β : Type} (p : Proc α) (f : α → Proc β) : (p >>= f) = Proc.andThen p f := rfl

theorem pure_eq {α : Type} (a : α) : (pure a : Proc α) = ⟨[], .ok a⟩ := rfl

theorem getD_one_of_getElem {args : List String} {cmd : String} (h : args[1]? = some cmd) :
    args.getD 1 "" = cmd ∧ 2 ≤ args.length := by
  match args, h with
  | _ :: c :: rest, h => simp at h; simp [h]

theorem mainBody_of_short (env : Env) (args : List String) (h : args.length < 2) :
    mainBody env args = ⟨printUsage.trace, .error (.exit EXIT_FAILURE)⟩ := by
  simp [mainBody, h, bind, Proc.andThen, printUsage, emit, exit]

theorem mainBody_lookup (env : Env) (args : List String) (h2 : 2 ≤ args.length) :
    mainBody env args =
      match dispatchTable.lookup (args.getD 1 "") with
      | some h => h env args
      | none => ⟨printUsage.trace, .error (.exit EXIT_FAILURE)⟩ := by
  have hlt : ¬ args.length < 2 := by omega
  simp only [mainBody, hlt, if_false, bind_eq, pure_eq, Proc.ok_andThen, List.nil_append, Proc.eta]
  generalize args.getD 1 "" = command
  by_cases h1 : command = "supervised"
  · subst h1; simp [dispatchTable, List.lookup]
  by_cases h2 : command = "skipgram"
  · subst h2; simp [dispatchTable, List.lookup]
  by_cases h3 : command = "cbow"
  · subst h3; simp [dispatchTable, List.lookup]
  by_cases h4 : command = "test"
  · subst h4; simp [dispatchTable, List.lookup]
  by_cases h5 : command = "predict"
  · subst h5; simp [dispatchTable, List.lookup]
  by_cases h6 : command = "predict-prob"
  · subst h6; simp [dispatchTable, List.lookup]
  by_cases h7 : command = "quantize"
  · subst h7; simp [dispatchTable, List.lookup]
  by_cases h8 : command = "train-index"
  · subst h8; simp [dispatchTable, List.lookup]
  by_cases h9 : command = "approx-predict"
  · subst h9; simp [dispatchTable, List.lookup]
  by_cases h10 : command = "to-fvecs"
  · subst h10; simp [dispatchTable, List.lookup]
  by_cases h11 : command = "print-word-vectors"
  · subst h11; simp [dispatchTable, List.lookup]
  by_cases h12 : command = "print-sentence-vectors"
  · subst h12; simp [dispatchTable, List.lookup]
  by_cases h13 : command = "print-ngrams"
  · subst h13; simp [dispatchTable, List.lookup]
  by_cases h14 : command = "nn"
  · subst h14; simp [dispatchTable, List.lookup]
  by_cases h15 : command = "analogies"
  · subst h15; simp [dispatchTable, List.lookup]
  have ne : ∀ l : String, ¬ command = l → (command == l) = false := fun l h => by simpa using h
  simp [dispatchTable, List.lookup, ne _ h1, ne _ h2, ne _ h3, ne _ h4, ne _ h5, ne _ h6, ne _ h7,
    ne _ h8, ne _ h9, ne _ h10, ne _ h11, ne _ h12, ne _ h13, ne _ h14, ne _ h15, h1, h2, h3, h4,
    h5, h6, h7, h8, h9, h10, h11, h12, h13, h14, h15, printUsage, emit, exit, bind_eq]

theorem test_arity (env : Env) (args : List String) (h : args.length < 4 ∨ args.length > 5) :
    test env args = ⟨printTestUsage.trace, .error (.exit EXIT_FAILURE)⟩ := by
  simp [test, h, bind_eq, printTestUsage, emit, exit]

theorem predict_arity (env : Env) (args : List String) (h : args.length < 4 ∨ args.length > 5) :
    predict env args = ⟨printPredictUsage.trace, .error (.exit EXIT_FAILURE)⟩ := by
  simp [predict, h, bind_eq, printPredictUsage, emit, exit]

theorem quantize_arity (env : Env) (args : List String) (h : args.length < 3) :
    quantize env args =
      ⟨printQuantizeUsage.trace ++ [.printHelp], .error (.exit EXIT_FAILURE)⟩ := by
  simp [quantize, h, bind_eq, printQuantizeUsage, emit, exit]

theorem trainIndex_arity (env : Env) (args : List String)
    (h : args.length < 3 ∨ args.length > 5) :
    trainIndex env args = ⟨printTrainIndexUsage.trace, .error (.exit EXIT_FAILURE)⟩ := by
  simp [trainIndex, h, bind_eq, printTrainIndexUsage, emit, exit]

theorem approxPredict_arity (env : Env) (args : List String)
    (h : args.length < 4 ∨ args.length > 6) :
    approxPredict env args = ⟨printFvecsUsage.trace, .error (.exit EXIT_FAILURE)⟩ := by
  simp [approxPredict, h, bind_eq, printFvecsUsage, emit, exit]

theorem toFvecs_arity (env : Env) (args : List String) (h : args.length ≠ 5) :
    toFvecs env args = ⟨printFvecsUsage.trace, .error (.exit EXIT_FAILURE)⟩ := by
  simp [toFvecs, h, bind_eq, printFvecsUsage, emit, exit]

theorem printWordVectors_arity (env : Env) (args : List String) (h : args.length ≠ 3) :
    printWordVectors env args =
      ⟨printPrintWordVectorsUsage.trace, .error (.exit EXIT_FAILURE)⟩ := by
  simp [printWordVectors, h, bind_eq, printPrintWordVectorsUsage, emit, exit]

theorem printSentenceVectors_arity (env : Env) (args : List String) (h : args.length ≠ 3) :
    printSentenceVectors env args =
      ⟨printPrintSentenceVectorsUsage.trace, .error (.exit EXIT_FAILURE)⟩ := by
  simp [printSentenceVectors, h, bind_eq, printPrintSentenceVectorsUsage, emit, exit]

theorem printNgrams_arity (env : Env) (args : List String) (h : args.length ≠ 4) :
    printNgrams env args = ⟨printPrintNgramsUsage.trace, .error (.exit EXIT_FAILURE)⟩ := by
  simp [printNgrams, h, bind_eq, printPrintNgramsUsage, emit, exit]

theorem nn_arity (env : Env) (args : List String) (h3 : args.length ≠ 3) (h4 : args.length ≠ 4) :
    nn env args = ⟨printNNUsage.trace, .error (.exit EXIT_FAILURE)⟩ := by
  simp [nn, h3, h4, bind_eq, printNNUsage, emit, exit]

theorem analogies_arity (env : Env) (args : List String) (h3 : args.length ≠ 3)
    (h4 : args.length ≠ 4) :
    analogies env args = ⟨printAnalogiesUsage.trace, .error (.exit EXIT_FAILURE)⟩ := by
  simp [analogies, h3, h4, bind_eq, printAnalogiesUsage, emit, exit]

theorem run_error (t : List Event) (o : Outcome) :
    Proc.run ⟨t, .error o⟩ = ⟨t, o⟩ := rfl

/-! ## C1: the router -/

theorem lookup_none_of_not_key {β : Type} (l : List (String × β)) (c : String)
    (h : c ∉ l.map Prod.fst) : l.lookup c = none := by
  induction l with
  | nil => rfl
  | cons entry rest ih =>
    obtain ⟨key, b⟩ := entry
    simp only [List.map_cons, List.mem_cons, not_or] at h
    have hne : (c == key) = false := by simpa using h.1
    simp only [List.lookup, hne]
    exact ih h.2

theorem lookup_some_of_mem {β : Type} (l : List (String × β))
    (hn : (l.map Prod.fst).Nodup) (c : String) (b : β) (h : (c, b) ∈ l) :
    l.lookup c = some b := by
  induction l with
  | nil => cases h
  | cons entry rest ih =>
    obtain ⟨key, b0⟩ := entry
    rw [List.map_cons, List.nodup_cons] at hn
    rcases List.mem_cons.mp h with heq | hin
    · cases heq
      simp [List.lookup]
    · have hkey : c ≠ key := by
        intro hck
        apply hn.1
        rw [← hck]
        exact List.mem_map.mpr ⟨(c, b), hin, rfl⟩
      have hne : (c == key) = false := by simpa using hkey
      simp only [List.lookup, hne]
      exact ih hn.2 hin

theorem dispatchTable_keys : dispatchTable.map Prod.fst = commands := rfl

theorem dispatchTable_keys_nodup : (dispatchTable.map Prod.fst).Nodup := by
  rw [dispatchTable_keys]
  decide

/-- C1: `main` dispatches on `args[1]` only.  With fewer than two arguments, or a token
outside the command list, the run is exactly: print the top-level usage, exit with failure
(so no model operation and no file open); every token of the list has exactly one entry in
the dispatch table, and the run of `main` is the run of that entry's handler. -/
theorem main_dispatch (env : Env) (args : List String) :
    ((args.length < 2 ∨ args.getD 1 "" ∉ commands) →
      main env args = usageFailure ∧
      ∀ e ∈ (main env args).trace, e.isModelOp = false ∧ e.isFileOpen = false) ∧
    (∀ c ∈ commands, ∃! handler, (c, handler) ∈ dispatchTable) ∧
    (∀ c handler, args[1]? = some c → (c, handler) ∈ dispatchTable →
      main env args = (handler env args).run) := by
  refine ⟨?_, ?_, ?_⟩
  · intro h
    have key : main env args = usageFailure := by
      rcases Nat.lt_or_ge args.length 2 with hlt | hge
      · simp [main, mainBody_of_short env args hlt, usageFailure, run_error]
      · have hn : args.getD 1 "" ∉ dispatchTable.map Prod.fst := by
          rw [dispatchTable_keys]
          rcases h with h | h
          · omega
          · exact h
        rw [main, mainBody_lookup env args hge, lookup_none_of_not_key _ _ hn]
        rfl
    refine ⟨key, ?_⟩
    rw [key]
    obtain ⟨text, ht⟩ : ∃ text, usageFailure.trace = [Event.write .cerr text] := ⟨_, rfl⟩
    intro e he
    rw [ht, List.mem_singleton] at he
    subst he
    exact ⟨rfl, rfl⟩
  · intro c hc
    rw [← dispatchTable_keys, List.mem_map] at hc
    obtain ⟨⟨key, handler⟩, hmem, hkey⟩ := hc
    simp only at hkey
    subst hkey
    refine ⟨handler, hmem, fun other hother => ?_⟩
    have h1 := lookup_some_of_mem _ dispatchTable_keys_nodup _ _ hmem
    have h2 := lookup_some_of_mem _ dispatchTable_keys_nodup _ _ hother
    rw [h1] at h2
    exact (Option.some.inj h2).symm
  · intro c handler hc hmem
    obtain ⟨hget, hlen⟩ := getD_one_of_getElem hc
    rw [main, mainBody_lookup env args hlen, hget,
      lookup_some_of_mem _ dispatchTable_keys_nodup _ _ hmem]

/-- C1, at `fasttext bogus`: the run is the top-level usage and a failure exit. -/
theorem main_dispatch_witness :
    main sampleEnv ["fasttext", "bogus"] = usageFailure :=
  ((main_dispatch sampleEnv ["fasttext", "bogus"]).1 (Or.inr (by simp [commands]))).1

/-! ## C2: arity violations -/

theorem main_of_lookup (env : Env) (args : List String) (c : String)
    (handler : Env → List String → Proc Unit) (hc : args[1]? = some c)
    (hl : dispatchTable.lookup c = some handler) : main env args = (handler env args).run := by
  obtain ⟨hget, hlen⟩ := getD_one_of_getElem hc
  rw [main, mainBody_lookup env args hlen, hget, hl]

theorem usageExit_of_eq {p : Proc Unit} {out : Out} {text : String} {more : List Event}
    (hm : more ⊆ [Event.printHelp])
    (h : p = ⟨Event.write out text :: more, .error (.exit EXIT_FAILURE)⟩) : IsUsageExit p.run :=
  ⟨out, text, more, hm, by rw [h]; rfl⟩

/-- C2: for every non-training command and every argument vector whose length is outside
the bounds the CLI table gives for it, the process exits with the failure status (which is
not zero) and nothing but console output happens: no model load, no model operation, no
file open. -/
theorem arity_violation_no_effect (env : Env) (args : List String) (cmd : String)
    (lo : Nat) (hi : Option Nat) (hmem : (cmd, lo, hi) ∈ arityBounds)
    (hcmd : args[1]? = some cmd) (hout : outsideBounds args.length lo hi = true) :
    (main env args).status = .exit EXIT_FAILURE ∧ EXIT_FAILURE ≠ 0 ∧
    ∀ e ∈ (main env args).trace, e.isModelOp = false ∧ e.isFileOpen = false := by
  have hrun : IsUsageExit (main env args) := by
    unfold arityBounds at hmem
    fin_cases hmem <;> simp only [outsideBounds, Bool.or_eq_true, decide_eq_true_eq] at hout
    · rw [main_of_lookup env args _ test hcmd (by simp [dispatchTable, List.lookup])]
      exact usageExit_of_eq (List.nil_subset _) (test_arity env args (by omega))
    · rw [main_of_lookup env args _ predict hcmd (by simp [dispatchTable, List.lookup])]
      exact usageExit_of_eq (List.nil_subset _) (predict_arity env args (by omega))
    · rw [main_of_lookup env args _ predict hcmd (by simp [dispatchTable, List.lookup])]
      exact usageExit_of_eq (List.nil_subset _) (predict_arity env args (by omega))
    · rw [main_of_lookup env args _ quantize hcmd (by simp [dispatchTable, List.lookup])]
      exact usageExit_of_eq (List.Subset.refl _) (quantize_arity env args (by omega))
    · rw [main_of_lookup env args _ trainIndex hcmd (by simp [dispatchTable, List.lookup])]
      exact usageExit_of_eq (List.nil_subset _) (trainIndex_arity env args (by omega))
    · rw [main_of_lookup env args _ approxPredict hcmd (by simp [dispatchTable, List.lookup])]
      exact usageExit_of_eq (List.nil_subset _) (approxPredict_arity env args (by omega))
    · rw [main_of_lookup env args _ toFvecs hcmd (by simp [dispatchTable, List.lookup])]
      exact usageExit_of_eq (List.nil_subset _) (toFvecs_arity env args (by omega))
    · rw [main_of_lookup env args _ printWordVectors hcmd (by simp [dispatchTable, List.lookup])]
      exact usageExit_of_eq (List.nil_subset _) (printWordVectors_arity env args (by omega))
    · rw [main_of_lookup env args _ printSentenceVectors hcmd
        (by simp [dispatchTable, List.lookup])]
      exact usageExit_of_eq (List.nil_subset _) (printSentenceVectors_arity env args (by omega))
    · rw [main_of_lookup env args _ printNgrams hcmd (by simp [dispatchTable, List.lookup])]
      exact usageExit_of_eq (List.nil_subset _) (printNgrams_arity env args (by omega))
    · rw [main_of_lookup env args _ nn hcmd (by simp [dispatchTable, List.lookup])]
      exact usageExit_of_eq (List.nil_subset _) (nn_arity env args (by omega) (by omega))
    · rw [main_of_lookup env args _ analogies hcmd (by simp [dispatchTable, List.lookup])]
      exact usageExit_of_eq (List.nil_subset _) (analogies_arity env args (by omega) (by omega))
  obtain ⟨out, text, more, hmore, hr⟩ := hrun
  rw [hr]
  refine ⟨rfl, by decide, ?_⟩
  intro e he
  rcases List.mem_cons.mp he with rfl | he
  · exact ⟨rfl, rfl⟩
  · have := hmore he
    rw [List.mem_singleton] at this
    subst this
    exact ⟨rfl, rfl⟩

/-- C2, at `fasttext to-fvecs model.bin data.txt` (4 arguments where exactly 5 are
required). -/
theorem arity_violation_no_effect_witness :
    (main sampleEnv ["fasttext", "to-fvecs", "model.bin", "data.txt"]).status
        = .exit EXIT_FAILURE ∧ EXIT_FAILURE ≠ 0 ∧
    ∀ e ∈ (main sampleEnv ["fasttext", "to-fvecs", "model.bin", "data.txt"]).trace,
      e.isModelOp = false ∧ e.isFileOpen = false :=
  arity_violation_no_effect sampleEnv ["fasttext", "to-fvecs", "model.bin", "data.txt"]
    "to-fvecs" 5 (some 5) (by simp [arityBounds]) rfl rfl

/-! ## C3: `train-index` -/

theorem lookup_trainIndex : dispatchTable.lookup "train-index" = some trainIndex := by
  simp [dispatchTable, List.lookup]

/-- C3: on a `train-index` vector of valid length whose model loads from `p = args[2]`:
if the model already has an index, the run is the load and a diagnostic, the status is 0,
and neither `trainIndex` nor `saveModel` is called; if it has none, `trainIndex` is called
once with the size and quantizer chosen (`args[3]`, `args[4]`, or `4096`, `Flat` when
absent), then the model is saved to `p` itself, and the status is 0. -/
theorem trainIndex_guarded (env : Env) (args : List String) (m : Model)
    (hcmd : args[1]? = some "train-index") (hlo : 3 ≤ args.length) (hhi : args.length ≤ 5)
    (hload : env.loadModel (args.getD 2 "") = some m) :
    (m.hasIndex = true →
      main env args =
        ⟨[.loadModel (args.getD 2 ""), .write .cerr "Model is already trained. Exiting.\n\n"],
          .exit 0⟩ ∧
      ∀ e ∈ (main env args).trace,
        (∀ size quant, e ≠ .trainIndex size quant) ∧ ∀ path, e ≠ .saveModel path) ∧
    (m.hasIndex = false →
      main env args =
        ⟨[.loadModel (args.getD 2 ""),
          .trainIndex (args.getD 3 "4096") (args.getD 4 "Flat"),
          .saveModel (some (args.getD 2 ""))], .exit 0⟩) := by
  rw [main_of_lookup env args _ trainIndex hcmd lookup_trainIndex]
  have harity : ¬ (args.length < 3 ∨ args.length > 5) := by omega
  constructor
  · intro hidx
    have key : (trainIndex env args).run =
        ⟨[.loadModel (args.getD 2 ""), .write .cerr "Model is already trained. Exiting.\n\n"],
          .exit 0⟩ := by
      simp [trainIndex, harity, bind_eq, pure_eq, loadModel, hload, hidx, emit, exit,
        Proc.run, EXIT_SUCCESS, -List.getD_eq_getElem?_getD]
    refine ⟨key, ?_⟩
    rw [key]
    intro e he
    simp only [List.mem_cons, List.mem_singleton, List.not_mem_nil, or_false] at he
    rcases he with rfl | rfl <;> exact ⟨fun _ _ h => (by cases h), fun _ h => (by cases h)⟩
  · intro hidx
    match args, hlo, hhi, hload with
    | [a0, a1, a2], _, _, hload =>
      simp at hload
      simp [trainIndex, bind_eq, pure_eq, loadModel, hload, hidx, emit, Proc.run]
    | [a0, a1, a2, a3], _, _, hload =>
      simp at hload
      simp [trainIndex, bind_eq, pure_eq, loadModel, hload, hidx, emit, Proc.run]
    | [a0, a1, a2, a3, a4], _, _, hload =>
      simp at hload
      simp [trainIndex, bind_eq, pure_eq, loadModel, hload, hidx, emit, Proc.run]

/-- C3, at `fasttext train-index model.bin` on a model without an index. -/
theorem trainIndex_guarded_witness :
    main sampleEnv ["fasttext", "train-index", "model.bin"] =
      ⟨[.loadModel "model.bin", .trainIndex "4096" "Flat", .saveModel (some "model.bin")],
        .exit 0⟩ :=
  (trainIndex_guarded sampleEnv ["fasttext", "train-index", "model.bin"] ⟨false⟩ rfl
    (by decide) (by decide) rfl).2 rfl

/-! ## C4: `approx-predict` needs an index -/

theorem stoi_cases (s : String) :
    (∃ v, stoi s = ⟨[], .ok v⟩) ∨ ∃ e, stoi s = ⟨[], .error (.terminate e)⟩ := by
  unfold stoi
  cases stoiValue s with
  | ok v => exact Or.inl ⟨v, rfl⟩
  | error e => exact Or.inr ⟨e, rfl⟩

theorem get_arg_cases (args : List String) (idx : Nat) (d : Int) :
    (∃ v, get_arg args idx d = ⟨[], .ok v⟩) ∨
      ∃ e, get_arg args idx d = ⟨[], .error (.terminate e)⟩ := by
  unfold get_arg
  split
  · exact stoi_cases _
  · exact Or.inl ⟨d, rfl⟩

theorem lookup_approxPredict : dispatchTable.lookup "approx-predict" = some approxPredict := by
  simp [dispatchTable, List.lookup]

/-- The run of `approx-predict` on a vector of valid length, by cases on what the world
answers. -/
theorem approxPredict_run (env : Env) (args : List String) (hlo : 4 ≤ args.length)
    (hhi : args.length ≤ 6) :
    (approxPredict env args).run =
      match env.loadModel (args.getD 2 "") with
      | none => ⟨[.loadModel (args.getD 2 "")], .exit EXIT_FAILURE⟩
      | some m =>
        let opened := Event.openIn (args.getD 3 "") (env.canRead (args.getD 3 ""))
        match (get_arg args 4 1).result with
        | .error o => ⟨[.loadModel (args.getD 2 ""), opened], o⟩
        | .ok k =>
          match (get_arg args 5 256).result with
          | .error o => ⟨[.loadModel (args.getD 2 ""), opened], o⟩
          | .ok nprobe =>
            if env.canRead (args.getD 3 "") = true ∧ m.hasIndex = true then
              ⟨[.loadModel (args.getD 2 ""), opened,
                .approxPredict (.file (args.getD 3 "")) k nprobe], .exit EXIT_SUCCESS⟩
            else
              ⟨.loadModel (args.getD 2 "") :: opened :: printFvecsUsage.trace,
                .exit EXIT_FAILURE⟩ := by
  have harity : ¬ (args.length < 4 ∨ args.length > 6) := by omega
  simp only [approxPredict, harity, if_false, bind_eq, pure_eq, Proc.ok_andThen,
    List.nil_append, Proc.eta, loadModel, ifstream]
  cases hl : env.loadModel (args.getD 2 "") with
  | none => simp [Proc.run]
  | some m =>
    rcases get_arg_cases args 4 1 with ⟨k, hk⟩ | ⟨e, hk⟩
    · rcases get_arg_cases args 5 256 with ⟨np, hn⟩ | ⟨e, hn⟩
      · cases hr : env.canRead (args.getD 3 "") <;> cases hi : m.hasIndex <;>
          simp [hk, hn, hr, hi, Proc.run, printFvecsUsage, emit, exit, bind_eq,
            -List.getD_eq_getElem?_getD]
      · simp [hk, hn, Proc.run, -List.getD_eq_getElem?_getD]
    · simp [hk, Proc.run, -List.getD_eq_getElem?_getD]

/-- C4: on an `approx-predict` vector of valid length, if the loaded model has no index the
process ends with a non-zero status (the failure exit whenever the optional integers
parse) and `approxPredict` is never called; and `approxPredict` is called only on a model
that has an index and after the data file opened. -/
theorem approxPredict_needs_index (env : Env) (args : List String)
    (hcmd : args[1]? = some "approx-predict") (hlo : 4 ≤ args.length)
    (hhi : args.length ≤ 6) :
    (∀ m, env.loadModel (args.getD 2 "") = some m → m.hasIndex = false →
      (main env args).status.nonZero = true ∧
      ((∃ k, (get_arg args 4 1).result = .ok k) → (∃ n, (get_arg args 5 256).result = .ok n) →
        (main env args).status = .exit EXIT_FAILURE) ∧
      ∀ src k nprobe, Event.approxPredict src k nprobe ∉ (main env args).trace) ∧
    (∀ src k nprobe, Event.approxPredict src k nprobe ∈ (main env args).trace →
      ∃ m, env.loadModel (args.getD 2 "") = some m ∧ m.hasIndex = true ∧
        env.canRead (args.getD 3 "") = true) := by
  rw [main_of_lookup env args _ approxPredict hcmd lookup_approxPredict,
    approxPredict_run env args hlo hhi]
  obtain ⟨text, ht⟩ : ∃ text, printFvecsUsage.trace = [Event.write .cerr text] := ⟨_, rfl⟩
  constructor
  · intro m hl hidx
    rw [hl]
    rcases get_arg_cases args 4 1 with ⟨k, hk⟩ | ⟨e, hk⟩
    · rcases get_arg_cases args 5 256 with ⟨np, hn⟩ | ⟨e, hn⟩
      · simp [hk, hn, hidx, ht, Outcome.nonZero, EXIT_FAILURE]
      · simp [hk, hn, Outcome.nonZero]
    · simp [hk, Outcome.nonZero]
  · intro src k np hmem
    cases hl : env.loadModel (args.getD 2 "") with
    | none => simp [hl, -List.getD_eq_getElem?_getD] at hmem
    | some m =>
      rw [hl] at hmem
      rcases get_arg_cases args 4 1 with ⟨k, hk⟩ | ⟨e, hk⟩
      · rcases get_arg_cases args 5 256 with ⟨np, hn⟩ | ⟨e, hn⟩
        · by_cases hc : env.canRead (args.getD 3 "") = true ∧ m.hasIndex = true
          · exact ⟨m, rfl, hc.2, hc.1⟩
          · simp [hk, hn, hc, ht, -List.getD_eq_getElem?_getD] at hmem
        · simp [hk, hn, -List.getD_eq_getElem?_getD] at hmem
      · simp [hk, -List.getD_eq_getElem?_getD] at hmem

/-- C4, at `fasttext approx-predict model.bin data.txt` on a model without an index. -/
theorem approxPredict_needs_index_witness :
    (main sampleEnv ["fasttext", "approx-predict", "model.bin", "data.txt"]).status.nonZero
      = true ∧
    ∀ src k nprobe, Event.approxPredict src k nprobe ∉
      (main sampleEnv ["fasttext", "approx-predict", "model.bin", "data.txt"]).trace :=
  have h := (approxPredict_needs_index sampleEnv
    ["fasttext", "approx-predict", "model.bin", "data.txt"] rfl (by decide) (by decide)).1
    ⟨false⟩ rfl rfl
  ⟨h.1, h.2.2⟩

/-! ## C5: omitted optional arguments -/

theorem stoi_one : stoi "1" = ⟨[], .ok 1⟩ := rfl

theorem stoi_ten : stoi "10" = ⟨[], .ok 10⟩ := rfl

theorem lookup_test : dispatchTable.lookup "test" = some test := by
  simp [dispatchTable, List.lookup]

theorem lookup_predict : dispatchTable.lookup "predict" = some predict := by
  simp [dispatchTable, List.lookup]

theorem lookup_predict_prob : dispatchTable.lookup "predict-prob" = some predict := by
  simp [dispatchTable, List.lookup]

theorem lookup_nn : dispatchTable.lookup "nn" = some nn := by
  simp [dispatchTable, List.lookup]

theorem lookup_analogies : dispatchTable.lookup "analogies" = some analogies := by
  simp [dispatchTable, List.lookup]

/-- C5: leaving an optional positional argument out gives the very same run (same effects
in the same order with the same parameters, same status) as passing its default: `1` for
`test`, `predict` and `predict-prob`, `10` for `nn` and `analogies`, `4096 Flat` for
`train-index`. -/
theorem defaults_same_run (env : Env) (prog m d : String) :
    main env [prog, "test", m, d] = main env [prog, "test", m, d, "1"] ∧
    main env [prog, "predict", m, d] = main env [prog, "predict", m, d, "1"] ∧
    main env [prog, "predict-prob", m, d] = main env [prog, "predict-prob", m, d, "1"] ∧
    main env [prog, "nn", m] = main env [prog, "nn", m, "10"] ∧
    main env [prog, "analogies", m] = main env [prog, "analogies", m, "10"] ∧
    main env [prog, "train-index", m] = main env [prog, "train-index", m, "4096", "Flat"] := by
  refine ⟨?_, ?_, ?_, ?_, ?_, ?_⟩
  · rw [main_of_lookup env _ _ test rfl lookup_test, main_of_lookup env _ _ test rfl lookup_test]
    simp [test, stoi_one, bind_eq, pure_eq]
  · rw [main_of_lookup env _ _ predict rfl lookup_predict,
      main_of_lookup env _ _ predict rfl lookup_predict]
    simp [predict, stoi_one, bind_eq, pure_eq]
  · rw [main_of_lookup env _ _ predict rfl lookup_predict_prob,
      main_of_lookup env _ _ predict rfl lookup_predict_prob]
    simp [predict, stoi_one, bind_eq, pure_eq]
  · rw [main_of_lookup env _ _ nn rfl lookup_nn, main_of_lookup env _ _ nn rfl lookup_nn]
    simp [nn, stoi_ten, bind_eq, pure_eq]
  · rw [main_of_lookup env _ _ analogies rfl lookup_analogies,
      main_of_lookup env _ _ analogies rfl lookup_analogies]
    simp [analogies, stoi_ten, bind_eq, pure_eq]
  · rw [main_of_lookup env _ _ trainIndex rfl lookup_trainIndex,
      main_of_lookup env _ _ trainIndex rfl lookup_trainIndex]
    simp [trainIndex, bind_eq, pure_eq]

/-! ## The runs of `test` and `predict` -/

/-- The optional `k` of `test` and `predict`: `args[4]` read by `stoi` when present, 1
otherwise. -/
theorem optional_k_cases (args : List String) :
    (∃ v, (if args.length ≥ 5 then stoi (args.getD 4 "") else pure 1) = ⟨[], .ok v⟩) ∨
      ∃ e, (if args.length ≥ 5 then stoi (args.getD 4 "") else pure 1)
        = ⟨[], .error (.terminate e)⟩ := by
  split
  · exact stoi_cases _
  · exact Or.inl ⟨1, rfl⟩

/-- The run of `predict`, by cases on the vector and on what the world answers. -/
theorem predict_run (env : Env) (args : List String) :
    (predict env args).run =
      if args.length < 4 ∨ args.length > 5 then ⟨printPredictUsage.trace, .exit EXIT_FAILURE⟩
      else
        match (if args.length ≥ 5 then stoi (args.getD 4 "") else pure 1).result with
        | .error o => ⟨[], o⟩
        | .ok k =>
          match env.loadModel (args.getD 2 "") with
          | none => ⟨[.loadModel (args.getD 2 "")], .exit EXIT_FAILURE⟩
          | some _ =>
            if args.getD 3 "" = "-" then
              ⟨[.loadModel (args.getD 2 ""),
                .predict .stdin k (decide (args.getD 1 "" = "predict-prob"))], .exit 0⟩
            else if env.canRead (args.getD 3 "") = true then
              ⟨[.loadModel (args.getD 2 ""), .openIn (args.getD 3 "") true,
                .predict (.file (args.getD 3 "")) k (decide (args.getD 1 "" = "predict-prob")),
                .closeIn (args.getD 3 "")], .exit 0⟩
            else
              ⟨[.loadModel (args.getD 2 ""), .openIn (args.getD 3 "") false,
                .write .cerr ("Input file cannot be opened!" ++ "\n")],
                .exit EXIT_FAILURE⟩ := by
  by_cases harity : args.length < 4 ∨ args.length > 5
  · rw [predict_arity env args harity, if_pos harity]; rfl
  · rw [if_neg harity]
    simp only [predict, harity, if_false, bind_eq, pure_eq, Proc.ok_andThen,
      List.nil_append, Proc.eta, loadModel, ifstream]
    rcases optional_k_cases args with ⟨k, hk⟩ | ⟨e, hk⟩
    · simp only [pure_eq] at hk
      cases hl : env.loadModel (args.getD 2 "") with
      | none => simp [hk, Proc.run, -List.getD_eq_getElem?_getD]
      | some m =>
        by_cases hd : args.getD 3 "" = "-"
        · simp [hk, hd, Proc.run, emit, exit, bind_eq, -List.getD_eq_getElem?_getD]
        · cases hr : env.canRead (args.getD 3 "") <;>
            simp [hk, hd, hr, Proc.run, emit, exit, bind_eq, pure_eq,
              -List.getD_eq_getElem?_getD]
    · simp only [pure_eq] at hk
      simp [hk, Proc.run, -List.getD_eq_getElem?_getD]

/-- The run of `test`, by cases on the vector and on what the world answers. -/
theorem test_run (env : Env) (args : List String) :
    (test env args).run =
      if args.length < 4 ∨ args.length > 5 then ⟨printTestUsage.trace, .exit EXIT_FAILURE⟩
      else
        match (if args.length ≥ 5 then stoi (args.getD 4 "") else pure 1).result with
        | .error o => ⟨[], o⟩
        | .ok k =>
          match env.loadModel (args.getD 2 "") with
          | none => ⟨[.loadModel (args.getD 2 "")], .exit EXIT_FAILURE⟩
          | some _ =>
            if args.getD 3 "" = "-" then
              ⟨[.loadModel (args.getD 2 ""), .test .stdin k], .exit 0⟩
            else if env.canRead (args.getD 3 "") = true then
              ⟨[.loadModel (args.getD 2 ""), .openIn (args.getD 3 "") true,
                .test (.file (args.getD 3 "")) k, .closeIn (args.getD 3 "")], .exit 0⟩
            else
              ⟨[.loadModel (args.getD 2 ""), .openIn (args.getD 3 "") false,
                .write .cerr ("Test file cannot be opened!" ++ "\n")],
                .exit EXIT_FAILURE⟩ := by
  by_cases harity : args.length < 4 ∨ args.length > 5
  · rw [test_arity env args harity, if_pos harity]; rfl
  · rw [if_neg harity]
    simp only [test, harity, if_false, bind_eq, pure_eq, Proc.ok_andThen,
      List.nil_append, Proc.eta, loadModel, ifstream]
    rcases optional_k_cases args with ⟨k, hk⟩ | ⟨e, hk⟩
    · simp only [pure_eq] at hk
      cases hl : env.loadModel (args.getD 2 "") with
      | none => simp [hk, Proc.run, -List.getD_eq_getElem?_getD]
      | some m =>
        by_cases hd : args.getD 3 "" = "-"
        · simp [hk, hd, Proc.run, emit, exit, bind_eq, -List.getD_eq_getElem?_getD]
        · cases hr : env.canRead (args.getD 3 "") <;>
            simp [hk, hd, hr, Proc.run, emit, exit, bind_eq, pure_eq,
              -List.getD_eq_getElem?_getD]
    · simp only [pure_eq] at hk
      simp [hk, Proc.run, -List.getD_eq_getElem?_getD]

/-! ## C7: `predict` and `predict-prob` -/

/-- C7: on the same arguments the runs of `predict` and `predict-prob` end with the same
status and perform the same effects (same arity check, same `k`, same model, same input),
except for the probability flag of the `predict` call: it is `true` in every call made
under `predict-prob` and `false` in every call made under `predict`. -/
theorem predict_prob_flag_only (env : Env) (prog : String) (rest : List String) :
    (main env (prog :: "predict-prob" :: rest)).status
      = (main env (prog :: "predict" :: rest)).status ∧
    (main env (prog :: "predict-prob" :: rest)).trace
      = (main env (prog :: "predict" :: rest)).trace.map (setProb true) ∧
    (main env (prog :: "predict" :: rest)).trace
      = (main env (prog :: "predict-prob" :: rest)).trace.map (setProb false) ∧
    (∀ src k b, Event.predict src k b ∈ (main env (prog :: "predict" :: rest)).trace →
      b = false) ∧
    (∀ src k b, Event.predict src k b ∈ (main env (prog :: "predict-prob" :: rest)).trace →
      b = true) := by
  rw [main_of_lookup env (prog :: "predict" :: rest) "predict" predict (by simp) lookup_predict,
    main_of_lookup env (prog :: "predict-prob" :: rest) "predict-prob" predict (by simp)
      lookup_predict_prob,
    predict_run, predict_run]
  obtain ⟨text, ht⟩ : ∃ text, printPredictUsage.trace = [Event.write .cerr text] := ⟨_, rfl⟩
  simp only [List.length_cons, List.getD_cons_succ, List.getD_cons_zero, ht]
  by_cases harity : rest.length + 1 + 1 < 4 ∨ rest.length + 1 + 1 > 5
  · simp [harity, setProb]
  · simp only [harity, if_false]
    have hk := optional_k_cases (prog :: "predict" :: rest)
    simp only [List.length_cons, List.getD_cons_succ, pure_eq] at hk
    rcases hk with ⟨k, hk⟩ | ⟨e, hk⟩
    · simp only [pure_eq, hk]
      cases hl : env.loadModel (rest.getD 0 "") with
      | none => simp [setProb]
      | some m =>
        by_cases hd : rest.getD 1 "" = "-"
        · simp [hd, setProb, -List.getD_eq_getElem?_getD]
        · cases hr : env.canRead (rest.getD 1 "") <;>
            simp [hd, hr, setProb, -List.getD_eq_getElem?_getD]
    · simp only [pure_eq, hk]
      simp

/-! ## C6: `to-fvecs` and open failures -/

theorem lookup_toFvecs : dispatchTable.lookup "to-fvecs" = some toFvecs := by
  simp [dispatchTable, List.lookup]

/-- C6, as stated, fails at `fasttext to-fvecs model.bin missing.txt out` when only the
input cannot be read: the run ends in failure, yet the three output files have been
opened for writing with success, that is created or truncated. -/
theorem toFvecs_outputs_created_on_failure :
    sampleEnv.canRead "missing.txt" = false ∧
    main sampleEnv ["fasttext", "to-fvecs", "model.bin", "missing.txt", "out"] =
      ⟨[.loadModel "model.bin", .openIn "missing.txt" false, .openOut "out.hid.fvecs" true,
        .openOut "out.wo.fvecs" true, .openOut "out.labels.txt" true,
        .write .cerr "Some files could not be opened!\n"], .exit EXIT_FAILURE⟩ := by
  constructor
  · decide
  · decide

/-- C6, amended: on a `to-fvecs` vector of length 5 whose model loads, all four opens are
made before any is checked.  If one of them failed, the run is the load, the four opens
and a diagnostic, the status is the failure status, and `toFvecs` is not called (no record
is written); the output files whose own open succeeded have been created or truncated.
If all four opened, `toFvecs` is called once with the input file and the three files
`base.hid.fvecs`, `base.wo.fvecs`, `base.labels.txt`, and the status is 0. -/
theorem toFvecs_opens_then_checks (env : Env) (args : List String) (m : Model)
    (hcmd : args[1]? = some "to-fvecs") (hlen : args.length = 5)
    (hload : env.loadModel (args.getD 2 "") = some m) :
    (fvecsAllOpen env (args.getD 3 "") (args.getD 4 "") = false →
      main env args =
        ⟨.loadModel (args.getD 2 "") :: fvecsOpens env (args.getD 3 "") (args.getD 4 "")
          ++ [.write .cerr "Some files could not be opened!\n"], .exit EXIT_FAILURE⟩ ∧
      ∀ src h w l, Event.toFvecs src h w l ∉ (main env args).trace) ∧
    (fvecsAllOpen env (args.getD 3 "") (args.getD 4 "") = true →
      main env args =
        ⟨.loadModel (args.getD 2 "") :: fvecsOpens env (args.getD 3 "") (args.getD 4 "")
          ++ [.toFvecs (.file (args.getD 3 "")) (args.getD 4 "" ++ ".hid.fvecs")
                (args.getD 4 "" ++ ".wo.fvecs") (args.getD 4 "" ++ ".labels.txt"),
              .closeIn (args.getD 3 "")], .exit 0⟩) := by
  rw [main_of_lookup env args _ toFvecs hcmd lookup_toFvecs]
  have harity : ¬ args.length ≠ 5 := by omega
  simp only [toFvecs, harity, if_false, bind_eq, pure_eq, Proc.ok_andThen,
    List.nil_append, Proc.eta, loadModel, ifstream, ofstream, hload, fvecsAllOpen, fvecsOpens]
  cases h1 : env.canRead (args.getD 3 "") <;>
    cases h2 : env.canWrite (args.getD 4 "" ++ ".hid.fvecs") <;>
    cases h3 : env.canWrite (args.getD 4 "" ++ ".wo.fvecs") <;>
    cases h4 : env.canWrite (args.getD 4 "" ++ ".labels.txt") <;>
    simp [Proc.run, emit, exit, bind_eq, -List.getD_eq_getElem?_getD]

/-- C6 amended, at `fasttext to-fvecs model.bin data.txt out` where all four streams
open. -/
theorem toFvecs_opens_then_checks_witness :
    main sampleEnv ["fasttext", "to-fvecs", "model.bin", "data.txt", "out"] =
      ⟨[.loadModel "model.bin", .openIn "data.txt" true, .openOut "out.hid.fvecs" true,
        .openOut "out.wo.fvecs" true, .openOut "out.labels.txt" true,
        .toFvecs (.file "data.txt") "out.hid.fvecs" "out.wo.fvecs" "out.labels.txt",
        .closeIn "data.txt"], .exit 0⟩ :=
  (toFvecs_opens_then_checks sampleEnv ["fasttext", "to-fvecs", "model.bin", "data.txt", "out"]
    ⟨false⟩ rfl rfl rfl).2 (by decide)

/-! ## C8: the data token `-` -/

/-- C8, as stated, fails for `approx-predict`: at `fasttext approx-predict model.bin -` a
file named `-` is opened and handed to `approxPredict`; standard input is not used. -/
theorem approxPredict_dash_is_a_file :
    main dashFileEnv ["fasttext", "approx-predict", "model.bin", "-"] =
      ⟨[.loadModel "model.bin", .openIn "-" true, .approxPredict (.file "-") 1 256],
        .exit EXIT_SUCCESS⟩ := by
  decide

/-- C8, amended: for `test`, `predict` and `predict-prob` (valid length, `k` parsed, model
loaded) the data token `-` gives the model operation standard input and no file is opened,
and any other token that opens gives it the file of that name; `approx-predict` has no
such token: it opens `args[3]` as a file whatever it is, and only ever hands that file to
`approxPredict`. -/
theorem data_token_dash (env : Env) (args : List String) (m : Model)
    (hlo : 4 ≤ args.length) (hload : env.loadModel (args.getD 2 "") = some m) :
    (∀ k, args.length ≤ 5 →
      (if args.length ≥ 5 then stoi (args.getD 4 "") else pure 1).result = .ok k →
      (args[1]? = some "test" →
        (args.getD 3 "" = "-" →
          main env args = ⟨[.loadModel (args.getD 2 ""), .test .stdin k], .exit 0⟩) ∧
        (args.getD 3 "" ≠ "-" → env.canRead (args.getD 3 "") = true →
          main env args =
            ⟨[.loadModel (args.getD 2 ""), .openIn (args.getD 3 "") true,
              .test (.file (args.getD 3 "")) k, .closeIn (args.getD 3 "")], .exit 0⟩)) ∧
      (∀ c, c = "predict" ∨ c = "predict-prob" → args[1]? = some c →
        (args.getD 3 "" = "-" →
          main env args =
            ⟨[.loadModel (args.getD 2 ""), .predict .stdin k (decide (c = "predict-prob"))],
              .exit 0⟩) ∧
        (args.getD 3 "" ≠ "-" → env.canRead (args.getD 3 "") = true →
          main env args =
            ⟨[.loadModel (args.getD 2 ""), .openIn (args.getD 3 "") true,
              .predict (.file (args.getD 3 "")) k (decide (c = "predict-prob")),
              .closeIn (args.getD 3 "")], .exit 0⟩))) ∧
    (args[1]? = some "approx-predict" → args.length ≤ 6 →
      (main env args).trace.take 2 =
        [.loadModel (args.getD 2 ""), .openIn (args.getD 3 "") (env.canRead (args.getD 3 ""))] ∧
      ∀ src k nprobe, Event.approxPredict src k nprobe ∈ (main env args).trace →
        src = .file (args.getD 3 "")) := by
  refine ⟨?_, ?_⟩
  · intro k hhi hk
    have harity : ¬ (args.length < 4 ∨ args.length > 5) := by omega
    refine ⟨?_, ?_⟩
    · intro hcmd
      rw [main_of_lookup env args _ test hcmd lookup_test, test_run, if_neg harity, hk, hload]
      refine ⟨fun hd => ?_, fun hd hr => ?_⟩
      · simp only [hd, if_true]
      · simp only [hd, hr, if_false, if_true]
    · intro c hc hcmd
      have hget := (getD_one_of_getElem hcmd).1
      have hlook : dispatchTable.lookup c = some predict := by
        rcases hc with rfl | rfl
        · exact lookup_predict
        · exact lookup_predict_prob
      rw [main_of_lookup env args _ predict hcmd hlook, predict_run, if_neg harity, hk, hload,
        hget]
      refine ⟨fun hd => ?_, fun hd hr => ?_⟩
      · simp only [hd, if_true]
      · simp only [hd, hr, if_false, if_true]
  · intro hcmd hhi
    rw [main_of_lookup env args _ approxPredict hcmd lookup_approxPredict,
      approxPredict_run env args hlo hhi, hload]
    obtain ⟨text, ht⟩ : ∃ text, printFvecsUsage.trace = [Event.write .cerr text] := ⟨_, rfl⟩
    rcases get_arg_cases args 4 1 with ⟨k, hk⟩ | ⟨e, hk⟩
    · rcases get_arg_cases args 5 256 with ⟨np, hn⟩ | ⟨e, hn⟩
      · by_cases hc : env.canRead (args.getD 3 "") = true ∧ m.hasIndex = true
        · simp [hk, hn, hc, -List.getD_eq_getElem?_getD]
          intro src _ _ h _ _
          exact h
        · simp [hk, hn, hc, ht, -List.getD_eq_getElem?_getD]
      · simp [hk, hn, -List.getD_eq_getElem?_getD]
    · simp [hk, -List.getD_eq_getElem?_getD]

/-- C8 amended, at `fasttext test model.bin -`: the test reads standard input. -/
theorem data_token_dash_witness :
    main sampleEnv ["fasttext", "test", "model.bin", "-"] =
      ⟨[.loadModel "model.bin", .test .stdin 1], .exit 0⟩ :=
  (((data_token_dash sampleEnv ["fasttext", "test", "model.bin", "-"] ⟨false⟩ (by decide)
    rfl).1 1 (by decide) rfl).1 rfl).1 rfl

/-- The `to-fvecs` handler opens a file named `-` as well, although its usage text
announces standard input for that token. -/
theorem toFvecs_dash_is_a_file :
    main dashFileEnv ["fasttext", "to-fvecs", "model.bin", "-", "out"] =
      ⟨[.loadModel "model.bin", .openIn "-" true, .openOut "out.hid.fvecs" true,
        .openOut "out.wo.fvecs" true, .openOut "out.labels.txt" true,
        .toFvecs (.file "-") "out.hid.fvecs" "out.wo.fvecs" "out.labels.txt",
        .closeIn "-"], .exit 0⟩ := by
  decide

/-! ## C9: the defaults of `approx-predict` -/

/-- With an index and an open data file, `approx-predict` calls `approxPredict` with the
values `get_arg` yields; the default handed to `get_arg` for `k` is 1. -/
theorem approxPredict_defaults (env : Env) (prog m d : String)
    (hload : env.loadModel m = some ⟨true⟩) (hread : env.canRead d = true) :
    main env [prog, "approx-predict", m, d] =
      ⟨[.loadModel m, .openIn d true, .approxPredict (.file d) 1 256], .exit EXIT_SUCCESS⟩ := by
  rw [main_of_lookup env _ _ approxPredict rfl lookup_approxPredict,
    approxPredict_run env _ (by simp) (by simp)]
  simp [hload, hread, get_arg, pure_eq]

/-- The optional arguments of `approx-predict` that are present are passed as `stoi` reads
them; with `k` alone, `nprobe` is 256. -/
theorem approxPredict_supplied (env : Env) (prog m d a4 a5 : String) (k nprobe : Int)
    (hload : env.loadModel m = some ⟨true⟩) (hread : env.canRead d = true)
    (hk : stoiValue a4 = .ok k) (hn : stoiValue a5 = .ok nprobe) :
    main env [prog, "approx-predict", m, d, a4] =
      ⟨[.loadModel m, .openIn d true, .approxPredict (.file d) k 256], .exit EXIT_SUCCESS⟩ ∧
    main env [prog, "approx-predict", m, d, a4, a5] =
      ⟨[.loadModel m, .openIn d true, .approxPredict (.file d) k nprobe],
        .exit EXIT_SUCCESS⟩ := by
  constructor
  · rw [main_of_lookup env _ _ approxPredict rfl lookup_approxPredict,
      approxPredict_run env _ (by simp) (by simp)]
    simp [hload, hread, get_arg, pure_eq, stoi, hk]
  · rw [main_of_lookup env _ _ approxPredict rfl lookup_approxPredict,
      approxPredict_run env _ (by simp) (by simp)]
    simp [hload, hread, get_arg, pure_eq, stoi, hk, hn]

/-- C9, at `fasttext approx-predict indexed.bin data.txt` (indexed model, readable data,
no optional argument): `approxPredict` is called with `k = 1` and `nprobe = 256`, where
the claim and the usage text of the command announce `k = 5`. -/
theorem approxPredict_default_k_is_one :
    main sampleEnv ["fasttext", "approx-predict", "indexed.bin", "data.txt"] =
      ⟨[.loadModel "indexed.bin", .openIn "data.txt" true,
        .approxPredict (.file "data.txt") 1 256], .exit EXIT_SUCCESS⟩ ∧
    Event.approxPredict (.file "data.txt") 5 256 ∉
      (main sampleEnv ["fasttext", "approx-predict", "indexed.bin", "data.txt"]).trace := by
  constructor <;> decide

/-! ## C10: which usage text, on which stream -/

/-- C10, at `fasttext approx-predict model.bin` and at `fasttext nn`: the arity violation
of `approx-predict` prints the usage of `to-fvecs`, which is not the text of
`printApproxPredictUsage`; the arity violation of `nn` prints its usage on standard
output, not on the error stream. -/
theorem usage_on_arity_violation :
    (main sampleEnv ["fasttext", "approx-predict", "model.bin"]).trace = printFvecsUsage.trace ∧
    printFvecsUsage.trace ≠ printApproxPredictUsage.trace ∧
    (main sampleEnv ["fasttext", "nn"]).trace = printNNUsage.trace ∧
    (∃ text, printNNUsage.trace = [Event.write .cout text]) ∧
    (main sampleEnv ["fasttext", "analogies"]).trace = printAnalogiesUsage.trace ∧
    (∃ text, printAnalogiesUsage.trace = [Event.write .cout text]) := by
  refine ⟨rfl, ?_, rfl, ⟨_, rfl⟩, rfl, ⟨_, rfl⟩⟩
  intro h
  have hlen := congrArg (fun t => t.map fun e => match e with
    | Event.write _ text => (text.toList.drop 16).head?
    | _ => none) h
  revert hlen
  decide

end FastText
